import Mathlib

/-!
Shallow embedding of `patient_trajectory/visualization.py`
(`PatientTrajectoryVisualizer.load_data` and
`PatientTrajectoryVisualizer.plot_patient_timeline`).

Tables are modelled as a list of column names together with a list of
rows, each row a list of cells positionally aligned with the names.
Cells model the pandas scalar values the module manipulates: strings,
numbers (floats and ints are modelled as rationals), parsed datetimes
(as whole days on a proleptic calendar, matching midnight timestamps),
and the missing marker (NaN / NaT / None).
-/

namespace PatientTrajectory

/-- A pandas scalar cell: a string, a number, a parsed date
(days since the calendar epoch), or the missing marker (NaN/NaT/None). -/
inductive Cell where
  | str (s : String)
  | num (q : ℚ)
  | date (d : ℤ)
  | na
deriving DecidableEq, Repr

/-- `pd.notnull`: everything except the missing marker is non-null. -/
def Cell.notnull : Cell → Bool
  | .na => false
  | _ => true

/-- `pd.isna` on a scalar. -/
def Cell.isNA : Cell → Bool
  | .na => true
  | _ => false

/-- Pandas `==` comparison between two scalar cells: NaN compares unequal
to everything (itself included); values of different kinds compare unequal. -/
def cellEq (a b : Cell) : Bool :=
  !a.isNA && !b.isNA && a == b

/-- Equality as used by the pandas `unique` hash table: like `cellEq`,
except that all missing markers are identified (a Series keeps one NaN
in its `unique()` output). -/
def cellEqU (a b : Cell) : Bool :=
  (a.isNA && b.isNA) || cellEq a b

/-- A DataFrame: column labels plus rows of cells aligned positionally. -/
structure DataFrame where
  cols : List String
  rows : List (List Cell)
deriving DecidableEq, Repr

def emptyDF : DataFrame := ⟨[], []⟩

/-- Value of column `c` in a row (`row[c]`): the cell at the position of
the first occurrence of `c` in the labels, missing if absent. -/
def getCell (cols : List String) (row : List Cell) (c : String) : Cell :=
  match cols.findIdx? (· == c) with
  | some j => row.getD j .na
  | none => .na

/-- The series `df[c]` as a list of scalar values. -/
def getCol (df : DataFrame) (c : String) : List Cell :=
  df.rows.map (fun r => getCell df.cols r c)

/-! ### Date parsing (`pd.to_datetime(..., errors="coerce")`)

The module hands date columns to `pd.to_datetime` with `errors="coerce"`.
We model the parser on ISO `YYYY-MM-DD` strings with a proleptic
Gregorian day count; values that do not parse become the missing marker. -/

def isLeapYear (y : ℕ) : Bool :=
  (y % 4 == 0 && y % 100 != 0) || y % 400 == 0

def daysInMonth (y m : ℕ) : ℕ :=
  if m == 2 then (if isLeapYear y then 29 else 28)
  else if m == 4 || m == 6 || m == 9 || m == 11 then 30
  else 31

/-- Days in the proleptic Gregorian calendar strictly before year `y`. -/
def daysBeforeYear (y : ℕ) : ℕ :=
  365 * (y - 1) + (y - 1) / 4 - (y - 1) / 100 + (y - 1) / 400

/-- Days in year `y` strictly before month `m`. -/
def daysBeforeMonth (y m : ℕ) : ℕ :=
  (List.range (m - 1)).foldl (fun acc k => acc + daysInMonth y (k + 1)) 0

/-- Ordinal day number of a calendar date (day 1 is 0001-01-01). -/
def toOrdinal (y m d : ℕ) : ℤ :=
  (daysBeforeYear y + daysBeforeMonth y m + d : ℤ)

/-- Parse an ISO `YYYY-MM-DD` string into a day number; `none` when the
string is not a valid calendar date. -/
def parseDateString (s : String) : Option ℤ :=
  match (s.splitOn "-").map String.toNat? with
  | [some y, some m, some d] =>
      if 1 ≤ y && 1 ≤ m && m ≤ 12 && 1 ≤ d && d ≤ daysInMonth y m then
        some (toOrdinal y m d)
      else none
  | _ => none

/-- `pd.to_datetime` with `errors="coerce"` on one scalar: dates pass
through, parseable strings become dates, everything unparsable (missing
values included) becomes the missing marker. -/
def parseDateCell : Cell → Cell
  | .str s =>
      match parseDateString s with
      | some d => .date d
      | none => .na
  | .date d => .date d
  | _ => .na

/-! ### `load_data` -/

/-- The constructor options of `PatientTrajectoryVisualizer`
(`selected_columns`, `rename_dict`, `drop_columns`). -/
structure VisualizerConfig where
  selected_columns : Option (List String)
  rename_dict : Option (List (String × String))
  drop_columns : Option (List String)

/-- `df[selected]` (step 1 of `load_data`): project the table onto the
selected labels in order; a label absent from the table raises `KeyError`. -/
def selectColumns (sel : List String) (df : DataFrame) : Except String DataFrame :=
  if sel.all (fun c => df.cols.contains c) then
    .ok ⟨sel, df.rows.map (fun r => sel.map (fun c => getCell df.cols r c))⟩
  else
    .error "KeyError: selected column not in DataFrame"

/-- New label of column `c` under a rename mapping. -/
def renameName (m : List (String × String)) (c : String) : String :=
  match m.find? (fun p => p.1 == c) with
  | some p => p.2
  | none => c

/-- `df.rename(columns=rename_dict)` (step 2 of `load_data`). -/
def renameColumns (m : List (String × String)) (df : DataFrame) : DataFrame :=
  ⟨df.cols.map (renameName m), df.rows⟩

/-- One row after `df.drop(columns=d)`: keep the cells whose label
survives. -/
def dropRow (cols : List String) (d : List String) (row : List Cell) : List Cell :=
  ((cols.zip row).filter (fun p => !d.contains p.1)).map Prod.snd

/-- `df.drop(columns=drop_columns, errors="ignore")` (step 3 of
`load_data`): labels in the drop list vanish, absent labels are ignored. -/
def dropColumns (d : List String) (df : DataFrame) : DataFrame :=
  ⟨df.cols.filter (fun c => !d.contains c), df.rows.map (dropRow df.cols d)⟩

/-- `df[c] = pd.to_datetime(df[c], errors="coerce")`, guarded by
`if c in df.columns` (step 4 of `load_data`). -/
def parseDateColumn (c : String) (df : DataFrame) : DataFrame :=
  match df.cols.findIdx? (· == c) with
  | some j =>
      ⟨df.cols, df.rows.map (fun r => r.set j (parseDateCell (r.getD j .na)))⟩
  | none => df

/-- Sort key of `sort_values(by="episode_start_date")`: the parsed start
date of the row, `none` for a missing value. -/
def dateKey : Cell → Option ℤ
  | .date d => some d
  | _ => none

def rowStartKey (cols : List String) (row : List Cell) : Option ℤ :=
  dateKey (getCell cols row "episode_start_date")

/-- The ascending order on sort keys; pandas places missing keys last
(`na_position="last"`). -/
def keyLE : Option ℤ → Option ℤ → Bool
  | _, none => true
  | none, some _ => false
  | some a, some b => a ≤ b

/-- Row comparison used for the chronological sort. -/
def rowLE (cols : List String) (r1 r2 : List Cell) : Prop :=
  keyLE (rowStartKey cols r1) (rowStartKey cols r2) = true

instance (cols : List String) : DecidableRel (rowLE cols) :=
  fun _ _ => inferInstanceAs (Decidable (_ = true))

/-- `df.sort_values(by="episode_start_date")`, guarded by
`if "episode_start_date" in df.columns` (step 5 of `load_data`). -/
def sortByStartDate (df : DataFrame) : DataFrame :=
  if df.cols.contains "episode_start_date" then
    ⟨df.cols, List.insertionSort (rowLE df.cols) df.rows⟩
  else df

/-- Step 1 of `load_data`: `df[selected_columns]` when the option is
given, the table unchanged otherwise. -/
def selectStep (cfg : VisualizerConfig) (df : DataFrame) :
    Except String DataFrame :=
  match cfg.selected_columns with
  | some sel => selectColumns sel df
  | none => .ok df

/-- Step 2 of `load_data`: rename columns when `rename_dict` is given. -/
def renameStep (cfg : VisualizerConfig) (df1 : DataFrame) : DataFrame :=
  match cfg.rename_dict with
  | some m => renameColumns m df1
  | none => df1

/-- Step 3 of `load_data`: drop columns when `drop_columns` is given. -/
def dropStep (cfg : VisualizerConfig) (df2 : DataFrame) : DataFrame :=
  match cfg.drop_columns with
  | some d => dropColumns d df2
  | none => df2

/-- Steps 2-5 of `load_data` on the selected table: rename, drop, parse
the two date columns, sort chronologically. -/
def transformSteps (cfg : VisualizerConfig) (df1 : DataFrame) : DataFrame :=
  sortByStartDate (parseDateColumn "episode_end_date"
    (parseDateColumn "episode_start_date" (dropStep cfg (renameStep cfg df1))))

/-- `PatientTrajectoryVisualizer.load_data`: copy, select, rename, drop,
parse the two date columns, sort chronologically. Only the selection step
can fail (with a `KeyError`), which propagates to the caller. -/
def load_data (cfg : VisualizerConfig) (df : DataFrame) :
    Except String DataFrame :=
  match selectStep cfg df with
  | .error e => .error e
  | .ok df1 => .ok (transformSteps cfg df1)

/-! ### `plot_patient_timeline` -/

/-- The default cluster palette (`cluster_colors` when `None`). -/
def defaultClusterColors : List String :=
  ["red", "green", "blue", "orange", "purple", "brown", "cyan"]

/-- Numeric reading of a cell, as used where the code does float
arithmetic on a value (`start_val`, `int(row[cluster_col])`). -/
def Cell.toRat : Cell → ℚ
  | .num q => q
  | .date d => (d : ℚ)
  | _ => 0

/-- Day count of a parsed date cell, as used in
`(row["episode_end_date"] - row["episode_start_date"]).days`. -/
def Cell.days : Cell → ℤ
  | .date d => d
  | _ => 0

/-- Python `int()` on a float: truncation toward zero. -/
def intTrunc (q : ℚ) : ℤ :=
  if 0 ≤ q then ⌊q⌋ else ⌈q⌉

/-- Average Gregorian year length used in the age conversion. -/
def daysPerYear : ℚ := 3652425 / 10000

/-- End position of one segment (lines 205-213 of the renderer): when
both date columns are in the row index and both values are non-null, the
start value plus the day difference divided by `365.2425`; otherwise the
start value itself. -/
def computeEndVal (cols : List String) (row : List Cell) (start_val : ℚ) : ℚ :=
  if cols.contains "episode_end_date" && cols.contains "episode_start_date" then
    if (getCell cols row "episode_end_date").notnull
        && (getCell cols row "episode_start_date").notnull then
      let duration_days :=
        (getCell cols row "episode_end_date").days
          - (getCell cols row "episode_start_date").days
      start_val + (duration_days : ℚ) / daysPerYear
    else start_val
  else start_val

/-- Segment color (lines 215-224 of the renderer): truncate the cluster
value to an int, subtract one, and index the palette when in range; a
missing or absent cluster value, or an out-of-range index, gives gray. -/
def segmentColor (cols : List String) (row : List Cell) (cluster_col : String)
    (cluster_colors : List String) : String :=
  if cols.contains cluster_col && (getCell cols row cluster_col).notnull then
    let cluster_idx := intTrunc (getCell cols row cluster_col).toRat - 1
    if 0 ≤ cluster_idx ∧ cluster_idx < (cluster_colors.length : ℤ) then
      cluster_colors.getD cluster_idx.toNat "gray"
    else "gray"
  else "gray"

/-- `pandas.Series.unique`: values in order of first appearance, with all
missing markers collapsed into one. -/
def uniqueCells : List Cell → List Cell
  | [] => []
  | c :: rest => c :: uniqueCells (rest.filter (fun x => !cellEqU x c))
termination_by l => l.length
decreasing_by
  simp only [List.length_cons]
  exact Nat.lt_succ_of_le (List.length_filter_le _ _)

/-- Rendered string of a cell, standing in for Python string formatting
in the annotation text. -/
def Cell.render : Cell → String
  | .str s => s
  | .num q => toString q
  | .date d => toString d
  | .na => "nan"

/-- One horizontal line segment drawn by `ax.plot([start, end], [i, i])`. -/
structure Segment where
  x1 : ℚ
  x2 : ℚ
  y : ℕ
  color : String
deriving DecidableEq, Repr

/-- One `ax.annotate` call: the joined text anchored at the segment start. -/
structure TextNote where
  text : String
  x : ℚ
  y : ℕ
deriving DecidableEq, Repr

/-- The observable output of one render call: the drawn segments and
annotations, the y-axis ticks and labels, the axis limits and labels, and
the optional save path. -/
structure PlotResult where
  segments : List Segment
  annotations : List TextNote
  yticks : List ℕ
  yticklabels : List Cell
  xlim : ℚ × ℚ
  xlabel : String
  ylabel : String
  saved : Option String
deriving DecidableEq, Repr

/-- Python `str.capitalize`: first character upper-cased, the rest
lower-cased. -/
def pyCapitalize (s : String) : String :=
  (s.take 1).toUpper ++ (s.drop 1).toLower

/-- The segment drawn for row `row` of the patient at y-position `i`. -/
def rowSegment (cols : List String) (age_col cluster_col : String)
    (cluster_colors : List String) (i : ℕ) (row : List Cell) : Segment :=
  let start_val := (getCell cols row age_col).toRat
  { x1 := start_val
    x2 := computeEndVal cols row start_val
    y := i
    color := segmentColor cols row cluster_col cluster_colors }

/-- The `"col: value"` parts of a row annotation (non-null values of the
annotation columns present in the row index). -/
def annotationParts (cols : List String) (annotation_cols : List String)
    (row : List Cell) : List String :=
  (annotation_cols.filter
      (fun c => cols.contains c && (getCell cols row c).notnull)).map
    (fun c => c ++ ": " ++ (getCell cols row c).render)

/-- The annotation placed for one row, when its text is nonempty. -/
def rowNote (cols : List String) (age_col : String)
    (annotation_cols : List String) (i : ℕ) (row : List Cell) :
    Option TextNote :=
  let text := String.intercalate "; " (annotationParts cols annotation_cols row)
  if text = "" then none
  else some ⟨text, (getCell cols row age_col).toRat, i⟩

/-- The rows of the one-patient subset `df[df[pasient_col] == patient_id]`. -/
def patientRows (df : DataFrame) (pasient_col : String) (pid : Cell) :
    List (List Cell) :=
  df.rows.filter (fun r => cellEq (getCell df.cols r pasient_col) pid)

/-- The successful render: iterate the distinct patients in order of
first appearance and draw one segment (and optional annotation) per row
of each patient subset; finish with the y ticks, labels and limits. -/
def plotRender (df : DataFrame)
    (pasient_col age_col cluster_col : String)
    (annotation_cols : Option (List String))
    (cluster_colors : Option (List String))
    (xlim : ℚ × ℚ) (save_path : Option String) : PlotResult :=
  { segments :=
      (uniqueCells (getCol df pasient_col)).enum.flatMap (fun p =>
        (patientRows df pasient_col p.2).map
          (rowSegment df.cols age_col cluster_col
            (cluster_colors.getD defaultClusterColors) p.1))
    annotations :=
      (uniqueCells (getCol df pasient_col)).enum.flatMap (fun p =>
        (patientRows df pasient_col p.2).filterMap
          (rowNote df.cols age_col (annotation_cols.getD []) p.1))
    yticks := List.range (uniqueCells (getCol df pasient_col)).length
    yticklabels := uniqueCells (getCol df pasient_col)
    xlim := xlim
    xlabel := pyCapitalize age_col
    ylabel := pyCapitalize pasient_col
    saved := save_path }

/-- `PatientTrajectoryVisualizer.plot_patient_timeline`: check the two
required columns, then render. -/
def plot_patient_timeline (df : DataFrame)
    (pasient_col age_col cluster_col : String)
    (annotation_cols : Option (List String))
    (cluster_colors : Option (List String))
    (xlim : ℚ × ℚ) (save_path : Option String) :
    Except String PlotResult :=
  if !df.cols.contains pasient_col then
    .error ("KeyError: DataFrame must contain a " ++ pasient_col ++ " column.")
  else if !df.cols.contains age_col then
    .error ("KeyError: DataFrame must contain a " ++ age_col ++ " column.")
  else
    .ok (plotRender df pasient_col age_col cluster_col annotation_cols
      cluster_colors xlim save_path)

/-! ### Basic lemmas -/

lemma intTrunc_intCast (n : ℤ) : intTrunc (n : ℚ) = n := by
  unfold intTrunc
  split
  · exact Int.floor_intCast n
  · exact Int.ceil_intCast n

lemma intTrunc_nonpos_of_lt_one {c : ℚ} (h : c < 1) : intTrunc c ≤ 0 := by
  unfold intTrunc
  split
  · have : ⌊c⌋ < (1 : ℤ) := Int.floor_lt.mpr (by exact_mod_cast h)
    omega
  · rename_i hc
    exact Int.ceil_le.mpr (le_of_lt (lt_of_not_le hc))

lemma segmentColor_eq_of_num (cols : List String) (row : List Cell)
    (ccol : String) (colors : List String) (c : ℚ)
    (hcell : getCell cols row ccol = .num c) (hcont : cols.contains ccol = true) :
    segmentColor cols row ccol colors =
      if 0 ≤ intTrunc c - 1 ∧ intTrunc c - 1 < (colors.length : ℤ) then
        colors.getD (intTrunc c - 1).toNat "gray"
      else "gray" := by
  unfold segmentColor
  rw [hcell, hcont]
  simp [Cell.notnull, Cell.toRat]

lemma segmentColor_gray_of_na (cols : List String) (row : List Cell)
    (ccol : String) (colors : List String)
    (hcell : getCell cols row ccol = .na) :
    segmentColor cols row ccol colors = "gray" := by
  unfold segmentColor
  rw [hcell]
  simp [Cell.notnull]

lemma segmentColor_gray_of_not_contains (cols : List String) (row : List Cell)
    (ccol : String) (colors : List String)
    (hcont : cols.contains ccol = false) :
    segmentColor cols row ccol colors = "gray" := by
  unfold segmentColor
  rw [hcont]
  simp

/-! ### Claim C1 -/

/-- C1: in `plot_patient_timeline`, a row whose two date columns are
present with non-missing (parsed) values gets segment end
`start + (end_date - start_date in days) / 365.2425`; a row with either
date column absent or either value missing gets segment end equal to the
start value. -/
theorem endVal_duration_or_start (cols : List String) (row : List Cell) (v : ℚ) :
    (∀ e s : ℤ,
        cols.contains "episode_end_date" = true →
        cols.contains "episode_start_date" = true →
        getCell cols row "episode_end_date" = .date e →
        getCell cols row "episode_start_date" = .date s →
        computeEndVal cols row v = v + ((e - s : ℤ) : ℚ) / daysPerYear) ∧
    ((cols.contains "episode_end_date" = false ∨
      cols.contains "episode_start_date" = false ∨
      getCell cols row "episode_end_date" = .na ∨
      getCell cols row "episode_start_date" = .na) →
      computeEndVal cols row v = v) := by
  constructor
  · intro e s hce hcs hge hgs
    unfold computeEndVal
    rw [hce, hcs, hge, hgs]
    simp [Cell.notnull, Cell.days]
  · intro h
    unfold computeEndVal
    rcases h with h | h | h | h
    · rw [h]; simp
    · rw [h]; simp
    · rw [h]
      by_cases hcs : cols.contains "episode_start_date" <;>
        by_cases hce : cols.contains "episode_end_date" <;>
        simp [hcs, hce, Cell.notnull]
    · rw [h]
      by_cases hcs : cols.contains "episode_start_date" <;>
        by_cases hce : cols.contains "episode_end_date" <;>
        simp [hcs, hce, Cell.notnull]

/-- Witness for C1 at concrete rows: 151 days between the parsed dates,
and a missing end date falling back to the start value. -/
theorem endVal_duration_or_start_witness :
    computeEndVal ["episode_start_date", "episode_end_date"]
        [Cell.date 100, Cell.date 251] 4 = 4 + (151 : ℚ) / daysPerYear ∧
    computeEndVal ["episode_start_date", "episode_end_date"]
        [Cell.date 100, Cell.na] 4 = 4 :=
  ⟨by
      have h := (endVal_duration_or_start
        ["episode_start_date", "episode_end_date"]
        [Cell.date 100, Cell.date 251] 4).1 251 100 rfl rfl rfl rfl
      rw [h]; norm_num,
   (endVal_duration_or_start ["episode_start_date", "episode_end_date"]
        [Cell.date 100, Cell.na] 4).2 (Or.inr (Or.inr (Or.inl rfl)))⟩

/-! ### Claim C2 -/

/-- C2: the segment color is `cluster_colors[int(cluster) - 1]` for a
present, non-missing, in-range cluster value; cluster 1 selects palette
index 0; a cluster value above the palette length, and a missing or
absent cluster value, select the fallback color gray. -/
theorem clusterColor_palette_or_gray (cols : List String) (row : List Cell)
    (ccol : String) (colors : List String) (n : ℤ) :
    (getCell cols row ccol = .num (n : ℚ) → cols.contains ccol = true →
        1 ≤ n → n ≤ (colors.length : ℤ) →
        segmentColor cols row ccol colors = colors.getD (n - 1).toNat "gray") ∧
    (getCell cols row ccol = .num 1 → cols.contains ccol = true →
        1 ≤ colors.length →
        segmentColor cols row ccol colors = colors.getD 0 "gray") ∧
    (getCell cols row ccol = .num (n : ℚ) → (colors.length : ℤ) < n →
        segmentColor cols row ccol colors = "gray") ∧
    ((getCell cols row ccol = .na ∨ cols.contains ccol = false) →
        segmentColor cols row ccol colors = "gray") := by
  refine ⟨?_, ?_, ?_, ?_⟩
  · intro hcell hcont h1 h2
    rw [segmentColor_eq_of_num cols row ccol colors _ hcell hcont,
      intTrunc_intCast]
    rw [if_pos ⟨by omega, by omega⟩]
  · intro hcell hcont h1
    have hcell' : getCell cols row ccol = .num ((1 : ℤ) : ℚ) := by
      exact_mod_cast hcell
    rw [segmentColor_eq_of_num cols row ccol colors _ hcell' hcont,
      intTrunc_intCast]
    rw [if_pos ⟨by omega, by omega⟩]
    norm_num
  · intro hcell hlen
    by_cases hcont : cols.contains ccol
    · rw [segmentColor_eq_of_num cols row ccol colors _ hcell hcont,
        intTrunc_intCast]
      rw [if_neg (by omega)]
    · exact segmentColor_gray_of_not_contains cols row ccol colors
        (Bool.not_eq_true _ ▸ hcont)
  · rintro (h | h)
    · exact segmentColor_gray_of_na cols row ccol colors h
    · exact segmentColor_gray_of_not_contains cols row ccol colors h

/-- Witness for C2 at a concrete row: cluster 2 picks the second palette
entry, cluster 1 the first, cluster 9 and a missing cluster fall back to
gray. -/
theorem clusterColor_palette_or_gray_witness :
    segmentColor ["cluster"] [Cell.num 2] "cluster" ["red", "green"]
        = (["red", "green"].getD (2 - 1 : ℤ).toNat "gray") ∧
    segmentColor ["cluster"] [Cell.num 1] "cluster" ["red", "green"]
        = (["red", "green"].getD 0 "gray") ∧
    segmentColor ["cluster"] [Cell.num 9] "cluster" ["red", "green"] = "gray" ∧
    segmentColor ["cluster"] [Cell.na] "cluster" ["red", "green"] = "gray" :=
  ⟨(clusterColor_palette_or_gray ["cluster"] [Cell.num 2] "cluster"
        ["red", "green"] 2).1
      (by rw [show getCell ["cluster"] [Cell.num 2] "cluster" = Cell.num 2
            from rfl]; norm_num)
      rfl (by omega) (by norm_num),
   (clusterColor_palette_or_gray ["cluster"] [Cell.num 1] "cluster"
        ["red", "green"] 2).2.1 rfl rfl (by norm_num),
   (clusterColor_palette_or_gray ["cluster"] [Cell.num 9] "cluster"
        ["red", "green"] 9).2.2.1
      (by rw [show getCell ["cluster"] [Cell.num 9] "cluster" = Cell.num 9
            from rfl]; norm_num)
      (by norm_num),
   (clusterColor_palette_or_gray ["cluster"] [Cell.na] "cluster"
        ["red", "green"] 9).2.2.2 (Or.inl rfl)⟩

/-! ### Claim C10 -/

/-- C10: a fractional cluster value is truncated toward zero before the
1-based palette lookup, so any cluster value with `1 <= int(c) <=`
palette length selects `cluster_colors[int(c) - 1]`, and any cluster
value below 1 (zero and negatives included) selects gray. -/
theorem clusterColor_truncates (cols : List String) (row : List Cell)
    (ccol : String) (colors : List String) (c : ℚ) :
    (getCell cols row ccol = .num c → cols.contains ccol = true →
        1 ≤ intTrunc c → intTrunc c ≤ (colors.length : ℤ) →
        segmentColor cols row ccol colors
          = colors.getD (intTrunc c - 1).toNat "gray") ∧
    (getCell cols row ccol = .num c → c < 1 →
        segmentColor cols row ccol colors = "gray") := by
  constructor
  · intro hcell hcont h1 h2
    rw [segmentColor_eq_of_num cols row ccol colors _ hcell hcont]
    rw [if_pos ⟨by omega, by omega⟩]
  · intro hcell hlt
    have htr : intTrunc c ≤ 0 := intTrunc_nonpos_of_lt_one hlt
    by_cases hcont : cols.contains ccol
    · rw [segmentColor_eq_of_num cols row ccol colors _ hcell hcont]
      rw [if_neg (by omega)]
    · exact segmentColor_gray_of_not_contains cols row ccol colors
        (Bool.not_eq_true _ ▸ hcont)

/-- Witness for C10: cluster 1.9 truncates to 1 and selects palette
index 0; cluster 0.9 and cluster -3 fall back to gray. -/
theorem clusterColor_truncates_witness :
    segmentColor ["cluster"] [Cell.num (19 / 10)] "cluster" ["red", "green"]
        = (["red", "green"].getD (intTrunc (19 / 10) - 1).toNat "gray") ∧
    segmentColor ["cluster"] [Cell.num (9 / 10)] "cluster" ["red", "green"]
        = "gray" ∧
    segmentColor ["cluster"] [Cell.num (-3)] "cluster" ["red", "green"]
        = "gray" :=
  ⟨(clusterColor_truncates ["cluster"] [Cell.num (19 / 10)] "cluster"
        ["red", "green"] (19 / 10)).1 rfl rfl
      (by rw [show intTrunc (19 / 10) = 1 from by norm_num [intTrunc]])
      (by rw [show intTrunc (19 / 10) = 1 from by norm_num [intTrunc]]; norm_num),
   (clusterColor_truncates ["cluster"] [Cell.num (9 / 10)] "cluster"
        ["red", "green"] (9 / 10)).2 rfl (by norm_num),
   (clusterColor_truncates ["cluster"] [Cell.num (-3)] "cluster"
        ["red", "green"] (-3)).2 rfl (by norm_num)⟩

/-! ### Claim C4 -/

/-- C4: a table lacking the patient-id column or the start-value column
makes `plot_patient_timeline` fail with a `KeyError` surfaced to the
caller, with no segment drawn. -/
theorem plot_missing_column_errors (df : DataFrame)
    (pcol acol ccol : String) (anns colors : Option (List String))
    (xlim : ℚ × ℚ) (sp : Option String)
    (h : df.cols.contains pcol = false ∨ df.cols.contains acol = false) :
    ∃ msg, plot_patient_timeline df pcol acol ccol anns colors xlim sp
      = .error msg := by
  unfold plot_patient_timeline
  rcases h with h | h
  · rw [h]
    exact ⟨_, rfl⟩
  · cases hp : df.cols.contains pcol
    · exact ⟨_, rfl⟩
    · rw [h]
      exact ⟨_, rfl⟩

/-- Witness for C4: a table with only an age column fails, and a table
with only a patient column fails. -/
theorem plot_missing_column_errors_witness :
    (∃ msg, plot_patient_timeline ⟨["age"], [[Cell.num 1]]⟩
        "pasient" "age" "cluster" none none (0, 100) none = .error msg) ∧
    (∃ msg, plot_patient_timeline ⟨["pasient"], [[Cell.num 1]]⟩
        "pasient" "age" "cluster" none none (0, 100) none = .error msg) :=
  ⟨plot_missing_column_errors ⟨["age"], [[Cell.num 1]]⟩
      "pasient" "age" "cluster" none none (0, 100) none (Or.inl (by decide)),
   plot_missing_column_errors ⟨["pasient"], [[Cell.num 1]]⟩
      "pasient" "age" "cluster" none none (0, 100) none (Or.inr (by decide))⟩

/-! ### Claim C9 -/

/-- C9: when `selected_columns` names a column absent from the input
table, `load_data` itself fails with a `KeyError` at load time. -/
theorem load_data_missing_selected_errors (cfg : VisualizerConfig)
    (df : DataFrame) (sel : List String) (c : String)
    (hs : cfg.selected_columns = some sel) (hc : c ∈ sel)
    (hm : df.cols.contains c = false) :
    ∃ msg, load_data cfg df = .error msg := by
  have hall : (sel.all fun c => df.cols.contains c) = false := by
    cases hA : sel.all fun c => df.cols.contains c
    · rfl
    · have h2 := List.all_eq_true.mp hA c hc
      simp only [hm] at h2
      exact absurd h2 (by decide)
  have hsel : selectStep cfg df
      = .error "KeyError: selected column not in DataFrame" := by
    unfold selectStep
    rw [hs]
    show selectColumns sel df = _
    unfold selectColumns
    rw [hall]
    rfl
  refine ⟨"KeyError: selected column not in DataFrame", ?_⟩
  unfold load_data
  rw [hsel]

/-- Witness for C9: selecting a column the table does not have fails at
load time. -/
theorem load_data_missing_selected_errors_witness :
    ∃ msg, load_data ⟨some ["pasient", "age"], none, none⟩
        ⟨["age"], [[Cell.num 1]]⟩ = .error msg :=
  load_data_missing_selected_errors ⟨some ["pasient", "age"], none, none⟩
    ⟨["age"], [[Cell.num 1]]⟩ ["pasient", "age"] "pasient"
    rfl (by decide) (by decide)

/-! ### Claim C3 -/

lemma parseDateColumn_cols (c : String) (df : DataFrame) :
    (parseDateColumn c df).cols = df.cols := by
  unfold parseDateColumn
  cases df.cols.findIdx? (· == c) <;> rfl

lemma sortByStartDate_cols (df : DataFrame) :
    (sortByStartDate df).cols = df.cols := by
  unfold sortByStartDate
  split <;> rfl

/-- C3: `load_data` selects, then renames, then drops, in that order; a
column whose drop-list name is renamed away before the drop step
survives in the result under its new name. -/
theorem rename_then_drop_keeps_renamed (cfg : VisualizerConfig)
    (df df1 r : DataFrame) (m : List (String × String)) (d : List String)
    (a : String)
    (hr : cfg.rename_dict = some m) (hd : cfg.drop_columns = some d)
    (hsel : selectStep cfg df = .ok df1)
    (ha : a ∈ df1.cols) (hadrop : a ∈ d) (hb : renameName m a ∉ d)
    (hload : load_data cfg df = .ok r) :
    r = sortByStartDate (parseDateColumn "episode_end_date"
          (parseDateColumn "episode_start_date"
            (dropColumns d (renameColumns m df1)))) ∧
    renameName m a ∈ r.cols := by
  have hr' : r = transformSteps cfg df1 := by
    unfold load_data at hload
    rw [hsel] at hload
    injection hload with h
    exact h.symm
  have hshape : transformSteps cfg df1
      = sortByStartDate (parseDateColumn "episode_end_date"
          (parseDateColumn "episode_start_date"
            (dropColumns d (renameColumns m df1)))) := by
    unfold transformSteps renameStep dropStep
    rw [hr, hd]
  refine ⟨by rw [hr', hshape], ?_⟩
  rw [hr', hshape, sortByStartDate_cols, parseDateColumn_cols,
    parseDateColumn_cols]
  unfold dropColumns renameColumns
  refine List.mem_filter.mpr ⟨List.mem_map.mpr ⟨a, ha, rfl⟩, ?_⟩
  simp [hb]

/-- Witness for C3: renaming column `a` to `b` before dropping `a`
leaves the data in the result under the name `b`. -/
theorem rename_then_drop_keeps_renamed_witness :
    (⟨["b"], [[Cell.num 1]]⟩ : DataFrame) =
        sortByStartDate (parseDateColumn "episode_end_date"
          (parseDateColumn "episode_start_date"
            (dropColumns ["a"] (renameColumns [("a", "b")]
              ⟨["a"], [[Cell.num 1]]⟩)))) ∧
    renameName [("a", "b")] "a" ∈ (⟨["b"], [[Cell.num 1]]⟩ : DataFrame).cols :=
  rename_then_drop_keeps_renamed ⟨none, some [("a", "b")], some ["a"]⟩
    ⟨["a"], [[Cell.num 1]]⟩ ⟨["a"], [[Cell.num 1]]⟩ ⟨["b"], [[Cell.num 1]]⟩
    [("a", "b")] ["a"] "a" rfl rfl rfl (by decide) (by decide) (by decide) rfl

/-! ### Claim C5 -/

lemma keyLE_total (a b : Option ℤ) : keyLE a b = true ∨ keyLE b a = true := by
  cases a <;> cases b <;> simp [keyLE]
  exact Int.le_total _ _

lemma keyLE_trans {a b c : Option ℤ} (h1 : keyLE a b = true)
    (h2 : keyLE b c = true) : keyLE a c = true := by
  cases a <;> cases b <;> cases c <;> simp_all [keyLE]
  omega

lemma load_data_ok_shape (cfg : VisualizerConfig) (df r : DataFrame)
    (h : load_data cfg df = .ok r) :
    ∃ df1, selectStep cfg df = .ok df1 ∧ r = transformSteps cfg df1 := by
  unfold load_data at h
  cases hsel : selectStep cfg df with
  | error e => rw [hsel] at h; exact Except.noConfusion h
  | ok df1 =>
      rw [hsel] at h
      injection h with h
      exact ⟨df1, rfl, h.symm⟩

lemma sortByStartDate_pairwise (df : DataFrame)
    (hc : df.cols.contains "episode_start_date" = true) :
    List.Pairwise (rowLE df.cols) (sortByStartDate df).rows := by
  unfold sortByStartDate
  rw [hc]
  letI : IsTotal (List Cell) (rowLE df.cols) :=
    ⟨fun _ _ => keyLE_total _ _⟩
  letI : IsTrans (List Cell) (rowLE df.cols) :=
    ⟨fun _ _ _ h1 h2 => keyLE_trans h1 h2⟩
  exact List.sorted_insertionSort (rowLE df.cols) df.rows

/-- C5: when the result of `load_data` has an `episode_start_date`
column, its rows are in non-decreasing order of that column's value:
whenever an earlier row and a later row both carry a parsed start date,
the earlier date is at most the later one. -/
theorem load_data_rows_sorted (cfg : VisualizerConfig) (df r : DataFrame)
    (hload : load_data cfg df = .ok r)
    (hc : r.cols.contains "episode_start_date" = true) :
    List.Pairwise (fun r1 r2 => ∀ d1 d2 : ℤ,
      rowStartKey r.cols r1 = some d1 → rowStartKey r.cols r2 = some d2 →
        d1 ≤ d2) r.rows := by
  obtain ⟨df1, hsel, hr⟩ := load_data_ok_shape cfg df r hload
  set df5 := parseDateColumn "episode_end_date"
    (parseDateColumn "episode_start_date"
      (dropStep cfg (renameStep cfg df1))) with hdf5
  have hr5 : r = sortByStartDate df5 := hr
  have hcols : r.cols = df5.cols := by rw [hr5, sortByStartDate_cols]
  have hc5 : df5.cols.contains "episode_start_date" = true := by
    rw [← hcols]; exact hc
  have hp := sortByStartDate_pairwise df5 hc5
  rw [← hr5] at hp
  simp only [hcols]
  refine hp.imp ?_
  intro r1 r2 h12 d1 d2 h1 h2
  unfold rowLE at h12
  rw [h1, h2] at h12
  simpa [keyLE] using h12

/-- Witness for C5: loading a table whose start dates are out of order
yields rows sorted ascending by start date. -/
theorem load_data_rows_sorted_witness :
    List.Pairwise (fun r1 r2 => ∀ d1 d2 : ℤ,
      rowStartKey (DataFrame.mk ["episode_start_date"]
        [[Cell.date 3], [Cell.date 5]]).cols r1 = some d1 →
      rowStartKey (DataFrame.mk ["episode_start_date"]
        [[Cell.date 3], [Cell.date 5]]).cols r2 = some d2 →
        d1 ≤ d2)
      (DataFrame.mk ["episode_start_date"]
        [[Cell.date 3], [Cell.date 5]]).rows :=
  load_data_rows_sorted ⟨none, none, none⟩
    ⟨["episode_start_date"], [[Cell.date 5], [Cell.date 3]]⟩
    ⟨["episode_start_date"], [[Cell.date 3], [Cell.date 5]]⟩
    rfl rfl

/-! ### Claim C6 -/

/-- A cell that is a parsed date or the missing marker: the only cell
shapes a date column can hold after `pd.to_datetime(..., errors="coerce")`. -/
def Cell.isDateOrNA : Cell → Bool
  | .date _ => true
  | .na => true
  | _ => false

lemma parseDateCell_isDateOrNA (c : Cell) :
    (parseDateCell c).isDateOrNA = true := by
  cases c with
  | str s =>
      show (match parseDateString s with
            | some d => Cell.date d
            | none => Cell.na).isDateOrNA = true
      cases parseDateString s <;> rfl
  | num q => rfl
  | date d => rfl
  | na => rfl

lemma getD_set_form {α : Type} (l : List α) (i j : ℕ) (v d : α) :
    (l.set i v).getD j d = if i = j ∧ i < l.length then v else l.getD j d := by
  simp only [List.getD_eq_getElem?_getD, List.getElem?_set]
  by_cases hij : i = j
  · subst hij
    by_cases hl : i < l.length
    · simp [hl]
    · simp [hl, List.getElem?_eq_none (Nat.le_of_not_lt hl)]
  · simp [hij]

lemma parseDateColumn_eq_some {df : DataFrame} {c : String} {j : ℕ}
    (hf : df.cols.findIdx? (· == c) = some j) :
    parseDateColumn c df =
      ⟨df.cols, df.rows.map (fun r => r.set j (parseDateCell (r.getD j .na)))⟩ := by
  unfold parseDateColumn
  rw [hf]

lemma parseDateColumn_eq_none {df : DataFrame} {c : String}
    (hf : df.cols.findIdx? (· == c) = none) :
    parseDateColumn c df = df := by
  unfold parseDateColumn
  rw [hf]

lemma contains_findIdx? {cols : List String} {c : String}
    (h : cols.contains c = true) : ∃ j, cols.findIdx? (· == c) = some j := by
  cases hf : cols.findIdx? (· == c) with
  | some j => exact ⟨j, rfl⟩
  | none =>
      rw [List.findIdx?_eq_none_iff] at hf
      obtain ⟨x, hx, hxc⟩ := List.contains_iff_exists_mem_beq.mp h
      rw [beq_iff_eq] at hxc
      subst hxc
      have := hf c hx
      simp at this

/-- After parsing column `c`, every row of the result carries a date or
a missing marker in column `c`. -/
lemma parseDateColumn_establishes {df : DataFrame} {c : String}
    (hc : df.cols.contains c = true) :
    ∀ r' ∈ (parseDateColumn c df).rows,
      (getCell df.cols r' c).isDateOrNA = true := by
  obtain ⟨j, hj⟩ := contains_findIdx? hc
  intro r' hr'
  rw [parseDateColumn_eq_some hj] at hr'
  obtain ⟨r, _, rfl⟩ := List.mem_map.mp hr'
  unfold getCell
  rw [hj]
  show ((r.set j (parseDateCell (r.getD j Cell.na))).getD j Cell.na).isDateOrNA
    = true
  rw [getD_set_form]
  split
  · exact parseDateCell_isDateOrNA _
  · rename_i hcond
    rcases Decidable.em (j < r.length) with hlt | hge
    · exact absurd ⟨rfl, hlt⟩ hcond
    · rw [List.getD_eq_getElem?_getD,
        List.getElem?_eq_none (Nat.le_of_not_lt hge)]
      rfl

/-- Parsing any column preserves the date-or-missing shape of any column
that already has it. -/
lemma parseDateColumn_preserves {df : DataFrame} {c' c : String}
    (hprev : ∀ r ∈ df.rows, (getCell df.cols r c).isDateOrNA = true) :
    ∀ r' ∈ (parseDateColumn c' df).rows,
      (getCell df.cols r' c).isDateOrNA = true := by
  intro r' hr'
  cases hf : df.cols.findIdx? (· == c') with
  | none =>
      rw [parseDateColumn_eq_none hf] at hr'
      exact hprev r' hr'
  | some j' =>
      rw [parseDateColumn_eq_some hf] at hr'
      obtain ⟨r, hr, rfl⟩ := List.mem_map.mp hr'
      unfold getCell
      cases hfc : df.cols.findIdx? (· == c) with
      | none => rfl
      | some j =>
          show ((r.set j' (parseDateCell (r.getD j' Cell.na))).getD
            j Cell.na).isDateOrNA = true
          rw [getD_set_form]
          split
          · exact parseDateCell_isDateOrNA _
          · have := hprev r hr
            unfold getCell at this
            rw [hfc] at this
            exact this

/-- The rows of the sorted table are rows of the unsorted one. -/
lemma sortByStartDate_mem {df : DataFrame} {r' : List Cell}
    (h : r' ∈ (sortByStartDate df).rows) : r' ∈ df.rows := by
  unfold sortByStartDate at h
  split at h
  · exact (List.perm_insertionSort (rowLE df.cols) df.rows).mem_iff.mp h
  · exact h

/-- The selection step succeeds: either no selection was requested, or
every selected label is present. -/
def selectionOK (cfg : VisualizerConfig) (df : DataFrame) : Prop :=
  ∀ sel, cfg.selected_columns = some sel →
    (sel.all fun c => df.cols.contains c) = true

lemma selectStep_ok (cfg : VisualizerConfig) (df : DataFrame)
    (hsel : selectionOK cfg df) : ∃ df1, selectStep cfg df = .ok df1 := by
  unfold selectStep
  cases hs : cfg.selected_columns with
  | none => exact ⟨df, rfl⟩
  | some sel =>
      refine ⟨⟨sel, df.rows.map (fun r => sel.map (fun c => getCell df.cols r c))⟩,
        ?_⟩
      show selectColumns sel df = _
      unfold selectColumns
      rw [hsel sel hs]
      rfl

/-- C6: as long as the selection step succeeds, `load_data` never fails
— in particular an unparsable date value never raises — and every value
left in a present date column is a parsed date or the explicit missing
marker. -/
theorem load_data_dates_coerced (cfg : VisualizerConfig) (df : DataFrame)
    (hsel : selectionOK cfg df) :
    ∃ r, load_data cfg df = .ok r ∧
      ∀ c, (c = "episode_start_date" ∨ c = "episode_end_date") →
        r.cols.contains c = true →
        ∀ row ∈ r.rows, (getCell r.cols row c).isDateOrNA = true := by
  obtain ⟨df1, h1⟩ := selectStep_ok cfg df hsel
  refine ⟨transformSteps cfg df1, ?_, ?_⟩
  · unfold load_data
    rw [h1]
  · set df3 := dropStep cfg (renameStep cfg df1) with hdf3
    set df4 := parseDateColumn "episode_start_date" df3 with hdf4
    set df5 := parseDateColumn "episode_end_date" df4 with hdf5
    have hshape : transformSteps cfg df1 = sortByStartDate df5 := rfl
    have hcols5 : (transformSteps cfg df1).cols = df5.cols := by
      rw [hshape, sortByStartDate_cols]
    have hcols4 : df5.cols = df4.cols := by
      rw [hdf5, parseDateColumn_cols]
    have hcols3 : df4.cols = df3.cols := by
      rw [hdf4, parseDateColumn_cols]
    intro c hc hcont row hrow
    have hrow5 : row ∈ df5.rows := by
      rw [hshape] at hrow
      exact sortByStartDate_mem hrow
    rw [hcols5] at hcont ⊢
    rcases hc with rfl | rfl
    · -- start date column: established in df4, preserved by the end parse
      have hcont3 : df3.cols.contains "episode_start_date" = true := by
        rw [← hcols3, ← hcols4]; exact hcont
      have hest := parseDateColumn_establishes hcont3
      rw [← hdf4] at hest
      have hpres : ∀ r' ∈ df5.rows,
          (getCell df4.cols r' "episode_start_date").isDateOrNA = true := by
        rw [hdf5]
        intro r' hr'
        exact parseDateColumn_preserves (by rw [hcols3]; exact hest) r' hr'
      rw [hcols4, hcols3]
      have := hpres row hrow5
      rw [hcols3] at this
      exact this
    · -- end date column: established by the final parse
      have hcont4 : df4.cols.contains "episode_end_date" = true := by
        rw [← hcols4]; exact hcont
      have hest := parseDateColumn_establishes hcont4
      rw [← hdf5] at hest
      rw [hcols4]
      exact hest row hrow5

/-- Witness for C6: a date column holding one unparsable string and one
valid date loads without error into a missing marker and a parsed date. -/
theorem load_data_dates_coerced_witness :
    ∃ r, load_data ⟨none, none, none⟩
        ⟨["episode_start_date"], [[Cell.str "not-a-date"], [Cell.date 7]]⟩
        = .ok r ∧
      ∀ c, (c = "episode_start_date" ∨ c = "episode_end_date") →
        r.cols.contains c = true →
        ∀ row ∈ r.rows, (getCell r.cols row c).isDateOrNA = true :=
  load_data_dates_coerced ⟨none, none, none⟩
    ⟨["episode_start_date"], [[Cell.str "not-a-date"], [Cell.date 7]]⟩
    (fun _ h => Option.noConfusion h)

/-! ### Claim C8

`load_data` is re-expressed over an explicit heap of frame objects, so
that the copy on line 104 and the in-place date-column assignments on
line 121 are visible: indices into the heap play the role of Python
references. `copy`, `df[sel]`, `rename`, `drop` and `sort_values` all
allocate fresh frames; only the two date-column assignments mutate the
frame the local `df` currently names. -/

abbrev Store := List DataFrame

/-- `df.copy()` (line 104): a fresh frame with the same contents. -/
def copyDF (df : DataFrame) : DataFrame := ⟨df.cols, df.rows⟩

/-- Append a freshly allocated frame and return its index. -/
def allocStep (store : Store) (df : DataFrame) : Store × ℕ :=
  (store ++ [df], store.length)

/-- Step 2 on the heap: `df = df.rename(...)` rebinds `df` to a fresh
frame when `rename_dict` is given. -/
def renameStoreStep (cfg : VisualizerConfig) (s : Store × ℕ) : Store × ℕ :=
  match cfg.rename_dict with
  | some m => allocStep s.1 (renameColumns m (s.1.getD s.2 emptyDF))
  | none => s

/-- Step 3 on the heap: `df = df.drop(...)` rebinds `df` to a fresh
frame when `drop_columns` is given. -/
def dropStoreStep (cfg : VisualizerConfig) (s : Store × ℕ) : Store × ℕ :=
  match cfg.drop_columns with
  | some d => allocStep s.1 (dropColumns d (s.1.getD s.2 emptyDF))
  | none => s

/-- Step 4 on the heap: `df[c] = pd.to_datetime(df[c], errors="coerce")`
mutates the frame `df` names in place. -/
def parseStoreStep (c : String) (s : Store × ℕ) : Store × ℕ :=
  (s.1.set s.2 (parseDateColumn c (s.1.getD s.2 emptyDF)), s.2)

/-- Step 5 on the heap: `df.sort_values(...)` returns a fresh frame. -/
def sortStoreStep (s : Store × ℕ) : Store × ℕ :=
  allocStep s.1 (sortByStartDate (s.1.getD s.2 emptyDF))

/-- Steps 2-5 of `load_data` on the heap. -/
def storeRest (cfg : VisualizerConfig) (s : Store × ℕ) : Store × ℕ :=
  sortStoreStep (parseStoreStep "episode_end_date"
    (parseStoreStep "episode_start_date"
      (dropStoreStep cfg (renameStoreStep cfg s))))

/-- The frame the local `df` currently names. -/
def cur (s : Store × ℕ) : DataFrame := s.1.getD s.2 emptyDF

/-- `load_data` on the heap: the caller's frame sits at index `p`; the
call returns the heap afterwards and the index of the result frame (or
the `KeyError` from the selection step). -/
def load_data_store (cfg : VisualizerConfig) (store : Store) (p : ℕ) :
    Store × Except String ℕ :=
  match cfg.selected_columns with
  | some sel =>
      match selectColumns sel
          (cur (allocStep store (copyDF (store.getD p emptyDF)))) with
      | .error e =>
          ((allocStep store (copyDF (store.getD p emptyDF))).1, .error e)
      | .ok d =>
          ((storeRest cfg (allocStep
              (allocStep store (copyDF (store.getD p emptyDF))).1 d)).1,
           .ok (storeRest cfg (allocStep
              (allocStep store (copyDF (store.getD p emptyDF))).1 d)).2)
  | none =>
      ((storeRest cfg (allocStep store (copyDF (store.getD p emptyDF)))).1,
       .ok (storeRest cfg (allocStep store (copyDF (store.getD p emptyDF)))).2)

/-- The caller's frame index is valid and distinct from the frame the
local `df` currently names, which is itself valid. -/
def GoodAt (s : Store × ℕ) (p : ℕ) : Prop :=
  p < s.1.length ∧ p ≠ s.2 ∧ s.2 < s.1.length

lemma getD_append_left {l : List DataFrame} (x : DataFrame) {p : ℕ}
    (hp : p < l.length) : (l ++ [x]).getD p emptyDF = l.getD p emptyDF := by
  simp only [List.getD_eq_getElem?_getD, List.getElem?_append]
  rw [if_pos hp]

lemma getD_append_self (l : List DataFrame) (x : DataFrame) :
    (l ++ [x]).getD l.length emptyDF = x := by
  simp only [List.getD_eq_getElem?_getD]
  rw [List.getElem?_append_right (Nat.le_refl _)]
  simp

lemma allocStep_spec (store : Store) (x : DataFrame) (p : ℕ)
    (h : p < store.length) :
    GoodAt (allocStep store x) p ∧
    (allocStep store x).1.getD p emptyDF = store.getD p emptyDF ∧
    cur (allocStep store x) = x := by
  refine ⟨⟨?_, ?_, ?_⟩, ?_, ?_⟩
  · simp [allocStep]; omega
  · exact fun hpq => absurd (hpq ▸ h) (lt_irrefl _)
  · simp [allocStep]
  · exact getD_append_left x h
  · exact getD_append_self store x

lemma renameStoreStep_spec (cfg : VisualizerConfig) (s : Store × ℕ) (p : ℕ)
    (h : GoodAt s p) :
    GoodAt (renameStoreStep cfg s) p ∧
    (renameStoreStep cfg s).1.getD p emptyDF = s.1.getD p emptyDF ∧
    cur (renameStoreStep cfg s) = renameStep cfg (cur s) := by
  unfold renameStoreStep renameStep
  cases cfg.rename_dict with
  | some m =>
      obtain ⟨hg, he, hc⟩ := allocStep_spec s.1 _ p h.1
      exact ⟨hg, he, hc⟩
  | none => exact ⟨h, rfl, rfl⟩

lemma dropStoreStep_spec (cfg : VisualizerConfig) (s : Store × ℕ) (p : ℕ)
    (h : GoodAt s p) :
    GoodAt (dropStoreStep cfg s) p ∧
    (dropStoreStep cfg s).1.getD p emptyDF = s.1.getD p emptyDF ∧
    cur (dropStoreStep cfg s) = dropStep cfg (cur s) := by
  unfold dropStoreStep dropStep
  cases cfg.drop_columns with
  | some d =>
      obtain ⟨hg, he, hc⟩ := allocStep_spec s.1 _ p h.1
      exact ⟨hg, he, hc⟩
  | none => exact ⟨h, rfl, rfl⟩

lemma parseStoreStep_spec (c : String) (s : Store × ℕ) (p : ℕ)
    (h : GoodAt s p) :
    GoodAt (parseStoreStep c s) p ∧
    (parseStoreStep c s).1.getD p emptyDF = s.1.getD p emptyDF ∧
    cur (parseStoreStep c s) = parseDateColumn c (cur s) := by
  obtain ⟨hp, hne, hw⟩ := h
  refine ⟨⟨by simpa [parseStoreStep], by simpa [parseStoreStep],
      by simpa [parseStoreStep]⟩, ?_, ?_⟩
  · show (s.1.set s.2 _).getD p emptyDF = _
    rw [getD_set_form]
    rw [if_neg (fun hc => hne hc.1.symm)]
  · show (s.1.set s.2 _).getD s.2 emptyDF = _
    rw [getD_set_form]
    rw [if_pos ⟨rfl, hw⟩]
    rfl

lemma sortStoreStep_spec (s : Store × ℕ) (p : ℕ) (h : GoodAt s p) :
    GoodAt (sortStoreStep s) p ∧
    (sortStoreStep s).1.getD p emptyDF = s.1.getD p emptyDF ∧
    cur (sortStoreStep s) = sortByStartDate (cur s) := by
  exact allocStep_spec s.1 _ p h.1

lemma storeRest_spec (cfg : VisualizerConfig) (s : Store × ℕ) (p : ℕ)
    (h : GoodAt s p) :
    GoodAt (storeRest cfg s) p ∧
    (storeRest cfg s).1.getD p emptyDF = s.1.getD p emptyDF ∧
    cur (storeRest cfg s) = transformSteps cfg (cur s) := by
  obtain ⟨g1, e1, c1⟩ := renameStoreStep_spec cfg s p h
  obtain ⟨g2, e2, c2⟩ := dropStoreStep_spec cfg _ p g1
  obtain ⟨g3, e3, c3⟩ := parseStoreStep_spec "episode_start_date" _ p g2
  obtain ⟨g4, e4, c4⟩ := parseStoreStep_spec "episode_end_date" _ p g3
  obtain ⟨g5, e5, c5⟩ := sortStoreStep_spec _ p g4
  refine ⟨g5, ?_, ?_⟩
  · show (sortStoreStep _).1.getD p emptyDF = _
    rw [e5, e4, e3, e2, e1]
  · show cur (sortStoreStep _) = _
    rw [c5, c4, c3, c2, c1]
    rfl

lemma load_data_store_none_eq (cfg : VisualizerConfig) (store : Store)
    (p : ℕ) (hs : cfg.selected_columns = none) :
    load_data_store cfg store p =
      ((storeRest cfg (allocStep store (copyDF (store.getD p emptyDF)))).1,
       .ok ((storeRest cfg
          (allocStep store (copyDF (store.getD p emptyDF)))).2)) := by
  unfold load_data_store
  rw [hs]

lemma load_data_store_some_eq (cfg : VisualizerConfig) (store : Store)
    (p : ℕ) (sel : List String) (hs : cfg.selected_columns = some sel) :
    load_data_store cfg store p =
      match selectColumns sel
          (cur (allocStep store (copyDF (store.getD p emptyDF)))) with
      | .error e =>
          ((allocStep store (copyDF (store.getD p emptyDF))).1, .error e)
      | .ok d =>
          ((storeRest cfg (allocStep
              (allocStep store (copyDF (store.getD p emptyDF))).1 d)).1,
           .ok ((storeRest cfg (allocStep
              (allocStep store (copyDF (store.getD p emptyDF))).1 d)).2)) := by
  unfold load_data_store
  rw [hs]

lemma load_data_none_eq (cfg : VisualizerConfig) (df : DataFrame)
    (hs : cfg.selected_columns = none) :
    load_data cfg df = .ok (transformSteps cfg df) := by
  unfold load_data selectStep
  rw [hs]

lemma load_data_some_eq (cfg : VisualizerConfig) (df : DataFrame)
    (sel : List String) (hs : cfg.selected_columns = some sel) :
    load_data cfg df =
      match selectColumns sel df with
      | .error e => .error e
      | .ok df1 => .ok (transformSteps cfg df1) := by
  unfold load_data selectStep
  rw [hs]

/-- C8: `load_data` operates on a copy — after the call, the caller's
frame is unchanged on the heap, and the returned reference names a frame
equal to the pure `load_data` result of the caller's frame. -/
theorem load_data_store_no_mutation (cfg : VisualizerConfig)
    (store : Store) (p : ℕ) (hp : p < store.length) :
    (load_data_store cfg store p).1.getD p emptyDF = store.getD p emptyDF ∧
    (load_data_store cfg store p).2.map
        (fun i => (load_data_store cfg store p).1.getD i emptyDF)
      = load_data cfg (store.getD p emptyDF) := by
  obtain ⟨g0, e0, c0⟩ :=
    allocStep_spec store (copyDF (store.getD p emptyDF)) p hp
  have hcopy : copyDF (store.getD p emptyDF) = store.getD p emptyDF := rfl
  cases hs : cfg.selected_columns with
  | none =>
      obtain ⟨g1, e1, c1⟩ := storeRest_spec cfg
        (allocStep store (copyDF (store.getD p emptyDF))) p g0
      rw [load_data_store_none_eq cfg store p hs,
        load_data_none_eq cfg _ hs]
      exact ⟨e1.trans e0,
        congrArg Except.ok (c1.trans (congrArg (transformSteps cfg) c0))⟩
  | some sel =>
      rw [load_data_store_some_eq cfg store p sel hs,
        load_data_some_eq cfg _ sel hs, c0, hcopy]
      cases hsc : selectColumns sel (store.getD p emptyDF) with
      | error e => exact ⟨e0, rfl⟩
      | ok d =>
          obtain ⟨ga, ea, ca⟩ := allocStep_spec
            (allocStep store (copyDF (store.getD p emptyDF))).1 d p g0.1
          obtain ⟨g1, e1, c1⟩ := storeRest_spec cfg
            (allocStep (allocStep store (copyDF (store.getD p emptyDF))).1 d)
            p ga
          exact ⟨e1.trans (ea.trans e0),
            congrArg Except.ok
              (c1.trans (congrArg (transformSteps cfg) ca))⟩

/-- Witness for C8: a one-frame heap whose frame has a date column is
unchanged at its original index after the call. -/
theorem load_data_store_no_mutation_witness :
    (load_data_store ⟨none, none, none⟩
        [⟨["episode_start_date"], [[Cell.str "2001-01-02"]]⟩] 0).1.getD 0 emptyDF
      = ([⟨["episode_start_date"], [[Cell.str "2001-01-02"]]⟩] : Store).getD
          0 emptyDF ∧
    (load_data_store ⟨none, none, none⟩
        [⟨["episode_start_date"], [[Cell.str "2001-01-02"]]⟩] 0).2.map
        (fun i => (load_data_store ⟨none, none, none⟩
          [⟨["episode_start_date"], [[Cell.str "2001-01-02"]]⟩] 0).1.getD
            i emptyDF)
      = load_data ⟨none, none, none⟩
          (([⟨["episode_start_date"], [[Cell.str "2001-01-02"]]⟩] :
            Store).getD 0 emptyDF) :=
  load_data_store_no_mutation ⟨none, none, none⟩
    [⟨["episode_start_date"], [[Cell.str "2001-01-02"]]⟩] 0
    (by decide)

/-! ### Claim C7 -/

lemma uniqueCells_nil : uniqueCells [] = [] := by
  rw [uniqueCells]

lemma uniqueCells_cons (c : Cell) (rest : List Cell) :
    uniqueCells (c :: rest)
      = c :: uniqueCells (rest.filter (fun x => !cellEqU x c)) := by
  rw [uniqueCells]

lemma cellEqU_refl (v : Cell) : cellEqU v v = true := by
  cases v <;> simp [cellEqU, cellEq, Cell.isNA]

lemma beq_cell_comm (a b : Cell) : (a == b) = (b == a) := by
  by_cases h : a = b
  · subst h; rfl
  · rw [beq_eq_false_iff_ne.mpr h, beq_eq_false_iff_ne.mpr (Ne.symm h)]

lemma cellEqU_symm (a b : Cell) : cellEqU a b = cellEqU b a := by
  unfold cellEqU cellEq
  rw [beq_cell_comm]
  cases ha : a.isNA <;> cases hb : b.isNA <;> simp

lemma cellEq_true_iff {v u : Cell} (hv : v.isNA = false) :
    cellEq v u = true ↔ v = u := by
  unfold cellEq
  rw [hv]
  constructor
  · intro h
    simp only [Bool.not_false, Bool.true_and, Bool.and_eq_true] at h
    exact eq_of_beq h.2
  · rintro rfl
    simp [hv]

lemma cellEqU_eq_cellEq {v : Cell} (hv : v.isNA = false) (u : Cell) :
    cellEqU v u = cellEq v u := by
  unfold cellEqU
  rw [hv]
  rfl

lemma mem_of_mem_uniqueCells {l : List Cell} :
    ∀ x ∈ uniqueCells l, x ∈ l := by
  induction l using uniqueCells.induct with
  | case1 =>
      intro x hx
      rw [uniqueCells_nil] at hx
      cases hx
  | case2 c rest ih =>
      intro x hx
      rw [uniqueCells_cons] at hx
      rcases List.mem_cons.mp hx with rfl | hx
      · exact List.mem_cons_self _ _
      · exact List.mem_cons_of_mem _ (List.mem_of_mem_filter (ih x hx))

lemma countP_uniqueCells_eq_one {v : Cell} (hv : v.isNA = false) :
    ∀ {l : List Cell}, v ∈ l →
      (uniqueCells l).countP (fun u => cellEq v u) = 1 := by
  intro l
  induction l using uniqueCells.induct with
  | case1 => intro h; cases h
  | case2 c rest ih =>
      intro hmem
      rw [uniqueCells_cons, List.countP_cons]
      cases hvc : cellEq v c with
      | true =>
          have hc : v = c := (cellEq_true_iff hv).mp hvc
          subst hc
          have h0 : (uniqueCells (rest.filter
              (fun x => !cellEqU x v))).countP (fun u => cellEq v u) = 0 := by
            rw [List.countP_eq_zero]
            intro u hu
            have hu' := mem_of_mem_uniqueCells u hu
            have hpred := (List.mem_filter.mp hu').2
            intro hcontra
            have hsym : cellEqU u v = true := by
              rw [cellEqU_symm, cellEqU_eq_cellEq hv]
              exact hcontra
            rw [hsym] at hpred
            exact absurd hpred (by decide)
          rw [h0]
          rfl
      | false =>
          have hvne : v ≠ c := by
            intro h
            subst h
            rw [(cellEq_true_iff hv).mpr rfl] at hvc
            cases hvc
          have hvrest : v ∈ rest := by
            rcases List.mem_cons.mp hmem with h | h
            · exact absurd h hvne
            · exact h
          have hvfilt : v ∈ rest.filter (fun x => !cellEqU x c) := by
            refine List.mem_filter.mpr ⟨hvrest, ?_⟩
            rw [cellEqU_eq_cellEq hv, hvc]
            rfl
          rw [ih hvfilt]
          rfl

lemma uniqueCells_pairwise (l : List Cell) :
    List.Pairwise (fun a b => cellEqU a b = false) (uniqueCells l) := by
  induction l using uniqueCells.induct with
  | case1 =>
      rw [uniqueCells_nil]
      exact List.Pairwise.nil
  | case2 c rest ih =>
      rw [uniqueCells_cons]
      refine List.Pairwise.cons ?_ ih
      intro u hu
      have hu' := mem_of_mem_uniqueCells u hu
      have hpred := (List.mem_filter.mp hu').2
      rw [cellEqU_symm]
      cases hor : cellEqU u c
      · rfl
      · rw [hor] at hpred
        exact absurd hpred (by decide)

lemma uniqueCells_covers (l : List Cell) :
    ∀ v ∈ l, ∃ u ∈ uniqueCells l, cellEqU v u = true := by
  induction l using uniqueCells.induct with
  | case1 => intro v hv; cases hv
  | case2 c rest ih =>
      intro v hv
      rw [uniqueCells_cons]
      rcases List.mem_cons.mp hv with rfl | hvrest
      · exact ⟨v, List.mem_cons_self _ _, cellEqU_refl v⟩
      · cases hvc : cellEqU v c with
        | false =>
            have hvfilt : v ∈ rest.filter (fun x => !cellEqU x c) :=
              List.mem_filter.mpr ⟨hvrest, by rw [hvc]; rfl⟩
            obtain ⟨u, hu, huv⟩ := ih v hvfilt
            exact ⟨u, List.mem_cons_of_mem _ hu, huv⟩
        | true => exact ⟨c, List.mem_cons_self _ _, hvc⟩

lemma sum_map_add' {α : Type} (l : List α) (f g : α → ℕ) :
    (l.map (fun x => f x + g x)).sum = (l.map f).sum + (l.map g).sum := by
  induction l with
  | nil => rfl
  | cons a t ih =>
      simp only [List.map_cons, List.sum_cons, ih]
      omega

lemma sum_map_ite_count {α : Type} (l : List α) (p : α → Bool) :
    (l.map (fun x => if p x then 1 else 0)).sum = l.countP p := by
  induction l with
  | nil => rfl
  | cons a t ih =>
      simp only [List.map_cons, List.sum_cons, List.countP_cons, ih]
      cases hpa : p a <;> simp [hpa] <;> omega

lemma sum_countP_comm (p : Cell → Cell → Bool) (U vals : List Cell) :
    (U.map (fun u => vals.countP (fun v => p v u))).sum
      = (vals.map (fun v => U.countP (fun u => p v u))).sum := by
  induction vals with
  | nil => simp
  | cons v vs ih =>
      simp only [List.map_cons, List.sum_cons, List.countP_cons]
      rw [sum_map_add' U (fun u => vs.countP (fun v => p v u))
          (fun u => if p v u then 1 else 0), ih,
        sum_map_ite_count U (fun u => p v u)]
      omega

lemma sum_map_all_one {α : Type} (l : List α) (f : α → ℕ)
    (h : ∀ x ∈ l, f x = 1) : (l.map f).sum = l.length := by
  induction l with
  | nil => rfl
  | cons a t ih =>
      simp only [List.map_cons, List.sum_cons, List.length_cons,
        h a (List.mem_cons_self a t),
        ih (fun x hx => h x (List.mem_cons_of_mem a hx))]
      omega

lemma segments_length (df : DataFrame) (pcol acol ccol : String)
    (colors0 : List String)
    (hnn : ∀ row ∈ df.rows, (getCell df.cols row pcol).isNA = false) :
    ((uniqueCells (getCol df pcol)).enum.flatMap (fun p =>
        (patientRows df pcol p.2).map
          (rowSegment df.cols acol ccol colors0 p.1))).length
      = df.rows.length := by
  rw [List.length_flatMap]
  have h1 : ∀ p : ℕ × Cell,
      (List.length ∘ fun p : ℕ × Cell =>
        (patientRows df pcol p.2).map
          (rowSegment df.cols acol ccol colors0 p.1)) p
      = (getCol df pcol).countP (fun v => cellEq v p.2) := by
    intro p
    show ((patientRows df pcol p.2).map _).length = _
    rw [List.length_map]
    unfold patientRows
    rw [← List.countP_eq_length_filter]
    unfold getCol
    rw [List.countP_map]
    rfl
  rw [List.map_congr_left (fun p _ => h1 p)]
  have h2 : (uniqueCells (getCol df pcol)).enum.map
      (fun p : ℕ × Cell => (getCol df pcol).countP (fun v => cellEq v p.2))
      = (uniqueCells (getCol df pcol)).map
          (fun u => (getCol df pcol).countP (fun v => cellEq v u)) := by
    rw [show (fun p : ℕ × Cell =>
          (getCol df pcol).countP (fun v => cellEq v p.2))
        = (fun u => (getCol df pcol).countP (fun v => cellEq v u))
            ∘ Prod.snd from rfl,
      ← List.map_map]
    rw [show (uniqueCells (getCol df pcol)).enum.map Prod.snd
        = uniqueCells (getCol df pcol) from
      List.enumFrom_map_snd 0 (uniqueCells (getCol df pcol))]
  rw [h2, sum_countP_comm]
  rw [sum_map_all_one]
  · exact List.length_map df.rows _
  · intro v hv
    obtain ⟨row, hrow, hveq⟩ := List.mem_map.mp hv
    exact countP_uniqueCells_eq_one (hveq ▸ hnn row hrow) hv

/-- C7 (amended): for every table with the required columns in which
every patient-id value is non-missing, the renderer draws exactly one
segment per episode row; the segment of each row of a patient sits at
that patient's index in first-appearance order; the y-tick count equals
the number of distinct patient identifiers, which are pairwise distinct
and cover every patient value. -/
theorem plot_one_segment_per_row (df : DataFrame) (pcol acol ccol : String)
    (anns colors : Option (List String)) (xlim : ℚ × ℚ) (sp : Option String)
    (res : PlotResult)
    (hp : df.cols.contains pcol = true) (ha : df.cols.contains acol = true)
    (hnn : ∀ row ∈ df.rows, (getCell df.cols row pcol).isNA = false)
    (hres : plot_patient_timeline df pcol acol ccol anns colors xlim sp
      = .ok res) :
    res.segments.length = df.rows.length ∧
    (∀ (i : ℕ) (pid : Cell), (uniqueCells (getCol df pcol))[i]? = some pid →
      ∀ row ∈ df.rows, cellEq (getCell df.cols row pcol) pid = true →
        rowSegment df.cols acol ccol (colors.getD defaultClusterColors) i row
          ∈ res.segments) ∧
    res.yticks.length = (uniqueCells (getCol df pcol)).length ∧
    List.Pairwise (fun a b => cellEqU a b = false)
      (uniqueCells (getCol df pcol)) ∧
    (∀ v ∈ getCol df pcol, ∃ u ∈ uniqueCells (getCol df pcol),
      cellEqU v u = true) := by
  have hres' : res = plotRender df pcol acol ccol anns colors xlim sp := by
    unfold plot_patient_timeline at hres
    rw [hp, ha] at hres
    exact (Except.ok.inj hres).symm
  subst hres'
  refine ⟨?_, ?_, ?_, uniqueCells_pairwise _, uniqueCells_covers _⟩
  · exact segments_length df pcol acol ccol
      (colors.getD defaultClusterColors) hnn
  · intro i pid hpid row hrow hcell
    show _ ∈ (plotRender df pcol acol ccol anns colors xlim sp).segments
    unfold plotRender
    refine List.mem_flatMap.mpr ⟨(i, pid), ?_, ?_⟩
    · exact List.mk_mem_enum_iff_getElem?.mpr hpid
    · exact List.mem_map.mpr ⟨row, List.mem_filter.mpr ⟨hrow, hcell⟩, rfl⟩
  · show (List.range (uniqueCells (getCol df pcol)).length).length = _
    exact List.length_range _

/-- Counterexample to C7 as stated: a table with the required columns
whose single episode row has a missing patient id renders zero segments
for its one row, because NaN compares unequal to itself in the
per-patient subset. -/
theorem plot_na_patient_drops_row :
    plot_patient_timeline ⟨["pasient", "age"], [[Cell.na, Cell.num 0]]⟩
        "pasient" "age" "cluster" none none (0, 100) none
      = .ok (plotRender ⟨["pasient", "age"], [[Cell.na, Cell.num 0]]⟩
          "pasient" "age" "cluster" none none (0, 100) none) ∧
    (plotRender ⟨["pasient", "age"], [[Cell.na, Cell.num 0]]⟩
        "pasient" "age" "cluster" none none (0, 100) none).segments.length
      ≠ (⟨["pasient", "age"], [[Cell.na, Cell.num 0]]⟩ :
          DataFrame).rows.length := by
  constructor
  · rfl
  · have hu : uniqueCells (getCol
        ⟨["pasient", "age"], [[Cell.na, Cell.num 0]]⟩ "pasient")
        = [Cell.na] := by
      show uniqueCells [Cell.na] = [Cell.na]
      rw [uniqueCells_cons]
      show Cell.na :: uniqueCells [] = [Cell.na]
      rw [uniqueCells_nil]
    unfold plotRender
    rw [hu]
    decide

/-- Witness for the amended C7 at the example data: two patients, three
episodes, three segments, two ticks. -/
theorem plot_one_segment_per_row_witness :
    (plotRender ⟨["pasient", "age"],
        [[Cell.num 5, Cell.num 0], [Cell.num 5, Cell.num 4],
         [Cell.num 6, Cell.num 50]]⟩
        "pasient" "age" "cluster" none none (0, 60) none).segments.length
      = (⟨["pasient", "age"],
        [[Cell.num 5, Cell.num 0], [Cell.num 5, Cell.num 4],
         [Cell.num 6, Cell.num 50]]⟩ : DataFrame).rows.length ∧
    (∀ (i : ℕ) (pid : Cell),
      (uniqueCells (getCol ⟨["pasient", "age"],
        [[Cell.num 5, Cell.num 0], [Cell.num 5, Cell.num 4],
         [Cell.num 6, Cell.num 50]]⟩ "pasient"))[i]? = some pid →
      ∀ row ∈ (⟨["pasient", "age"],
        [[Cell.num 5, Cell.num 0], [Cell.num 5, Cell.num 4],
         [Cell.num 6, Cell.num 50]]⟩ : DataFrame).rows,
        cellEq (getCell ["pasient", "age"] row "pasient") pid = true →
          rowSegment ["pasient", "age"] "age" "cluster"
            ((none : Option (List String)).getD defaultClusterColors) i row
            ∈ (plotRender ⟨["pasient", "age"],
              [[Cell.num 5, Cell.num 0], [Cell.num 5, Cell.num 4],
               [Cell.num 6, Cell.num 50]]⟩
              "pasient" "age" "cluster" none none (0, 60) none).segments) ∧
    (plotRender ⟨["pasient", "age"],
        [[Cell.num 5, Cell.num 0], [Cell.num 5, Cell.num 4],
         [Cell.num 6, Cell.num 50]]⟩
        "pasient" "age" "cluster" none none (0, 60) none).yticks.length
      = (uniqueCells (getCol ⟨["pasient", "age"],
        [[Cell.num 5, Cell.num 0], [Cell.num 5, Cell.num 4],
         [Cell.num 6, Cell.num 50]]⟩ "pasient")).length ∧
    List.Pairwise (fun a b => cellEqU a b = false)
      (uniqueCells (getCol ⟨["pasient", "age"],
        [[Cell.num 5, Cell.num 0], [Cell.num 5, Cell.num 4],
         [Cell.num 6, Cell.num 50]]⟩ "pasient")) ∧
    (∀ v ∈ getCol ⟨["pasient", "age"],
        [[Cell.num 5, Cell.num 0], [Cell.num 5, Cell.num 4],
         [Cell.num 6, Cell.num 50]]⟩ "pasient",
      ∃ u ∈ uniqueCells (getCol ⟨["pasient", "age"],
        [[Cell.num 5, Cell.num 0], [Cell.num 5, Cell.num 4],
         [Cell.num 6, Cell.num 50]]⟩ "pasient"), cellEqU v u = true) :=
  plot_one_segment_per_row
    ⟨["pasient", "age"],
      [[Cell.num 5, Cell.num 0], [Cell.num 5, Cell.num 4],
       [Cell.num 6, Cell.num 50]]⟩
    "pasient" "age" "cluster" none none (0, 60) none
    (plotRender ⟨["pasient", "age"],
      [[Cell.num 5, Cell.num 0], [Cell.num 5, Cell.num 4],
       [Cell.num 6, Cell.num 50]]⟩
      "pasient" "age" "cluster" none none (0, 60) none)
    (by decide) (by decide) (by decide) rfl

end PatientTrajectory
